/-
Verification of the query-and-aggregation core of the customer/order API
(`app.py` / `simple_api.py`, two copies of the same logic).

The SQL queries are shallowly embedded over in-memory tables (`DB`).
Modelling notes, justified against the source:
  * `users.id` and `orders.order_id` are SQLite PRIMARY KEYs
    (`database_setup.py`); `DB.wf` records this uniqueness invariant and is
    assumed where a query's GROUP BY semantics relies on it.
  * `created_at` timestamps are modelled as `Nat` (the loader stores ISO-8601
    text, whose lexicographic order is chronological; only relative order is
    ever used by the queries).
  * `ORDER BY created_at DESC` carries no secondary sort key in the source, so
    SQL leaves the relative order of equal timestamps unspecified.  It is
    embedded as a stable insertion sort on the descending-timestamp relation:
    one admissible realization of the query.  No theorem below about tie
    order asserts more than this admissibility.
  * SQLite `LIKE` is case-insensitive on ASCII and treats `%` and `_` in the
    pattern as wildcards; `likeMatch` embeds exactly that.  The code builds
    the pattern as `'%' + search + '%'` with the raw search term interpolated.
  * `SUM`/`AVG` over an empty (or all-NULL) set are NULL in SQL.  Where the
    Python code coalesces (`or 0`) the model uses plain `Nat` sums (0 on
    empty); where it does not (`total_items_ordered` in the customer-detail
    row, passed through `dict(customer)` verbatim) the model uses
    `Option Nat` with `none` for NULL.
  * `AVG` and Python's `round(x, 2)` act on floats; they are modelled over ℚ
    with round-half-to-even, exact except for float representation error,
    which no claim exercises.
  * Echo-only columns that no query logic reads (addresses, latitude,
    longitude, traffic_source, ...) and the `top_countries` block, which no
    claim mentions, are elided from the records.
-/
import Mathlib

namespace CustomerApi

/-- A row of the `users` table (`database_setup.py`, columns used by the
query logic; echo-only columns elided). -/
structure User where
  id : Nat
  first_name : String
  last_name : String
  email : String
  created_at : Nat
deriving DecidableEq

/-- A row of the `orders` table. -/
structure Order where
  order_id : Nat
  user_id : Nat
  status : String
  num_of_item : Nat
  created_at : Nat
  shipped_at : Option Nat := none
  delivered_at : Option Nat := none
  returned_at : Option Nat := none
deriving DecidableEq

/-- The database: the two tables, as lists of rows in insertion order. -/
structure DB where
  users : List User
  orders : List Order
deriving DecidableEq

/-- Primary-key uniqueness, enforced by the schema
(`id INTEGER PRIMARY KEY`, `order_id INTEGER PRIMARY KEY`). -/
def DB.wf (db : DB) : Prop :=
  (db.users.map (·.id)).Nodup ∧ (db.orders.map (·.order_id)).Nodup

instance (db : DB) : Decidable db.wf := by
  unfold DB.wf; infer_instance

/-- SQLite `LIKE` folds ASCII uppercase to lowercase before comparing. -/
def likeFoldChar (c : Char) : Char :=
  if 'A' ≤ c ∧ c ≤ 'Z' then Char.ofNat (c.toNat + 32) else c

/-- SQLite `LIKE` pattern matching: `%` matches any (possibly empty)
sequence — rendered as a search over all split points — `_` matches any
single character, and any other pattern character compares after ASCII case
folding. -/
def likeMatch : List Char → List Char → Bool
  | [], s => s.isEmpty
  | p :: pr, s =>
    if p = '%' then
      (List.range (s.length + 1)).any (fun k => likeMatch pr (s.drop k))
    else
      match s with
      | [] => false
      | c :: s2 => (p == '_' || likeFoldChar p == likeFoldChar c) && likeMatch pr s2

/-- `s LIKE pat` on strings. -/
def likeStr (pat s : String) : Bool := likeMatch pat.data s.data

/-- The `'%' + search + '%'` pattern built by the code
(`search_param = f-string percent-wrapped search`). -/
def likePattern (search : String) : String := "%" ++ search ++ "%"

/-- Python's `str.strip()`: drop leading and trailing whitespace. -/
def pyStrip (s : String) : String :=
  ⟨((s.data.dropWhile Char.isWhitespace).reverse.dropWhile Char.isWhitespace).reverse⟩

/-- The search predicate of `list_customers`:
`first_name LIKE ? OR last_name LIKE ? OR email LIKE ?`. -/
def matchesSearch (search : String) (u : User) : Bool :=
  likeStr (likePattern search) u.first_name ||
    likeStr (likePattern search) u.last_name ||
    likeStr (likePattern search) u.email

/-- The orders of one user: `... FROM orders WHERE user_id = ?`; also the
per-user join partner set of `LEFT JOIN orders o ON u.id = o.user_id`. -/
def userOrders (db : DB) (uid : Nat) : List Order :=
  db.orders.filter (fun o => o.user_id == uid)

/-- `page = max(1, int(page))` (`app.py` line 44). -/
def normPage (page : Int) : Int := max 1 page

/-- `limit = min(100, max(1, int(limit)))` (`app.py` line 45). -/
def normLimit (limit : Int) : Int := min 100 (max 1 limit)

/-- `offset = (page - 1) * limit` after clamping (`app.py` line 49). -/
def pageOffset (page limit : Int) : Nat :=
  ((normPage page - 1) * normLimit limit).toNat

/-- `total_pages = (total_count + limit - 1) // limit` (`app.py` line 104). -/
def pageCount (total limitN : Nat) : Nat := (total + limitN - 1) / limitN

/-- Pagination metadata block attached to list responses
(`app.py` lines 111-118 and 289-296). -/
structure Pagination where
  page : Int
  limit : Int
  total : Nat
  total_pages : Nat
  has_next : Bool
  has_prev : Bool
deriving DecidableEq

/-- Builds the pagination block: `has_next = page < total_pages`,
`has_prev = page > 1`. -/
def mkPagination (page limit : Int) (total : Nat) : Pagination :=
  let p := normPage page
  let tp := pageCount total (normLimit limit).toNat
  { page := p
    limit := normLimit limit
    total := total
    total_pages := tp
    has_next := decide (p < (tp : Int))
    has_prev := decide (1 < p) }

/-- `ORDER BY created_at DESC` on users (no secondary key in the source). -/
def byCreatedDescU (a b : User) : Prop := b.created_at ≤ a.created_at

instance : DecidableRel byCreatedDescU := fun _ _ => Nat.decLe _ _

instance : IsTotal User byCreatedDescU := ⟨fun a b => Nat.le_total b.created_at a.created_at⟩

instance : IsTrans User byCreatedDescU := ⟨fun _ _ _ h1 h2 => Nat.le_trans h2 h1⟩

/-- `ORDER BY created_at DESC` on orders (no secondary key in the source). -/
def byCreatedDescO (a b : Order) : Prop := b.created_at ≤ a.created_at

instance : DecidableRel byCreatedDescO := fun _ _ => Nat.decLe _ _

instance : IsTotal Order byCreatedDescO := ⟨fun a b => Nat.le_total b.created_at a.created_at⟩

instance : IsTrans Order byCreatedDescO := ⟨fun _ _ _ h1 h2 => Nat.le_trans h2 h1⟩

/-- Users sorted most recently created first (stable realization of the
unkeyed-tie `ORDER BY`, see header note). -/
def sortUsersDesc (l : List User) : List User := l.insertionSort byCreatedDescU

/-- Orders sorted most recently created first. -/
def sortOrdersDesc (l : List Order) : List Order := l.insertionSort byCreatedDescO

/-- The `WHERE` clause of `list_customers`: with an empty (stripped) search
the unfiltered query runs, otherwise the three-field `LIKE` filter. -/
def filteredUsers (db : DB) (search : String) : List User :=
  if search = "" then db.users else db.users.filter (matchesSearch search)

/-- The separate count query of `list_customers` (`app.py` lines 93-103):
`COUNT(*)` without search, `COUNT(DISTINCT u.id)` with the same filter
otherwise. -/
def searchTotal (db : DB) (search : String) : Nat :=
  if search = "" then db.users.length
  else ((db.users.filter (matchesSearch search)).map (·.id)).dedup.length

/-- A row of the `list_customers` SELECT: user columns plus the derived
`COUNT(o.order_id) as order_count` of its LEFT-JOIN group. -/
structure CustomerRow where
  id : Nat
  first_name : String
  last_name : String
  email : String
  created_at : Nat
  order_count : Nat
deriving DecidableEq

/-- The grouped LEFT-JOIN row for one user (faithful per-user under the
`DB.wf` primary-key invariant, which makes each group one user). -/
def rowOfUser (db : DB) (u : User) : CustomerRow :=
  { id := u.id
    first_name := u.first_name
    last_name := u.last_name
    email := u.email
    created_at := u.created_at
    order_count := (userOrders db u.id).length }

/-- Response of `GET /api/customers` (`app.py` lines 108-120). -/
structure ListCustomersResponse where
  success : Bool
  data : List CustomerRow
  pagination : Pagination
  search : Option String
deriving DecidableEq

/-- `list_customers` (`app.py` lines 33-120): strip the search term, clamp
page/limit, filter, group, order by `created_at DESC`, window by
LIMIT/OFFSET, and attach pagination metadata from the separate count query. -/
def listCustomers (db : DB) (page limit : Int) (rawSearch : String) : ListCustomersResponse :=
  let s := pyStrip rawSearch
  let off := pageOffset page limit
  let limN := (normLimit limit).toNat
  { success := true
    data := (((sortUsersDesc (filteredUsers db s)).drop off).take limN).map (rowOfUser db)
    pagination := mkPagination page limit (searchTotal db s)
    search := if s = "" then none else some s }

/-- The customer row of `get_customer_details` (`app.py` lines 146-159):
user columns plus `COUNT(o.order_id)` and `SUM(o.num_of_item)`.  The SUM is
SQL-NULL when the user has no orders and the code passes it through
`dict(customer)` uncoalesced, hence `Option Nat`. -/
structure CustomerDetail where
  id : Nat
  first_name : String
  last_name : String
  email : String
  created_at : Nat
  order_count : Nat
  total_items_ordered : Option Nat
deriving DecidableEq

/-- Round-half-to-even on ℚ, the semantics of Python's `round`. -/
def roundHalfEven (q : ℚ) : ℤ :=
  let n := ⌊q⌋
  let r := q - (n : ℚ)
  if r < 1 / 2 then n
  else if 1 / 2 < r then n + 1
  else if n % 2 = 0 then n else n + 1

/-- Python's `round(x, 2)`. -/
def round2 (q : ℚ) : ℚ := (roundHalfEven (q * 100) : ℚ) / 100

/-- The per-user statistics block (`app.py` lines 193-221): NULL SUM/AVG are
coalesced by the code (`or 0`) before output, and the AVG is rounded to two
decimals. -/
structure OrderStatistics where
  total_orders : Nat
  total_items : Nat
  avg_items_per_order : ℚ
  completed_orders : Nat
  shipped_orders : Nat
  cancelled_orders : Nat
deriving DecidableEq

/-- Aggregates of the stats query over a list of order rows. -/
def orderStats (os : List Order) : OrderStatistics :=
  { total_orders := os.length
    total_items := (os.map (·.num_of_item)).sum
    avg_items_per_order :=
      if os.isEmpty then 0
      else round2 (((os.map (·.num_of_item)).sum : ℚ) / (os.length : ℚ))
    completed_orders := (os.filter (fun o => o.status == "Complete")).length
    shipped_orders := (os.filter (fun o => o.status == "Shipped")).length
    cancelled_orders := (os.filter (fun o => o.status == "Cancelled")).length }

/-- The `data` payload of `GET /api/customers/<id>` (`app.py` lines 211-222). -/
structure CustomerDetailsData where
  customer : CustomerDetail
  recent_orders : List Order
  order_statistics : OrderStatistics
deriving DecidableEq

/-- `get_customer_details` (`app.py` lines 135-234): `none` is the 404 path
(the grouped single-user query returns no row exactly when the id matches no
user). -/
def getCustomerDetails (db : DB) (cid : Nat) : Option CustomerDetailsData :=
  match db.users.find? (fun u => u.id == cid) with
  | none => none
  | some u =>
    let os := userOrders db cid
    some
      { customer :=
          { id := u.id
            first_name := u.first_name
            last_name := u.last_name
            email := u.email
            created_at := u.created_at
            order_count := os.length
            total_items_ordered :=
              if os.isEmpty then none else some ((os.map (·.num_of_item)).sum) }
        recent_orders := (sortOrdersDesc os).take 5
        order_statistics := orderStats os }

/-- Response of `GET /api/customers/<id>/orders` (`app.py` lines 286-297). -/
structure CustomerOrdersResponse where
  success : Bool
  data : List Order
  pagination : Pagination
deriving DecidableEq

/-- `get_customer_orders` (`app.py` lines 236-310): a separate existence
lookup (`SELECT id FROM users WHERE id = ?`) guards the paginated fetch;
`none` is the 404 path. -/
def getCustomerOrders (db : DB) (cid : Nat) (page limit : Int) : Option CustomerOrdersResponse :=
  if db.users.any (fun u => u.id == cid) then
    let off := pageOffset page limit
    let limN := (normLimit limit).toNat
    some
      { success := true
        data := ((sortOrdersDesc (userOrders db cid)).drop off).take limN
        pagination := mkPagination page limit (userOrders db cid).length }
  else none

/-- The row set of `users u LEFT JOIN orders o ON u.id = o.user_id`,
restricted to its non-NULL order part: one copy of each order per user it
matches.  Users without orders contribute a NULL row that every aggregate of
the statistics query (`COUNT(o.order_id)`, `SUM`, `AVG`, the status `CASE`
counts) ignores, so it is not materialized here; `COUNT(DISTINCT u.id)` is
computed from the users table directly. -/
def joinedOrders (db : DB) : List Order :=
  (db.users.map (fun u => userOrders db u.id)).flatten

/-- `overall_statistics` of `get_statistics` (`app.py` lines 322-336 and
359-373, NULL SUM/AVG coalesced to 0 by the code). -/
structure OverallStatistics where
  total_customers : Nat
  total_orders : Nat
  total_items : Nat
  avg_items_per_order : ℚ
  completed_orders : Nat
  shipped_orders : Nat
  cancelled_orders : Nat
deriving DecidableEq

/-- `get_statistics` (`app.py` lines 312-380), `top_countries` elided. -/
def getStatistics (db : DB) : OverallStatistics :=
  let js := joinedOrders db
  { total_customers := (db.users.map (·.id)).dedup.length
    total_orders := js.length
    total_items := (js.map (·.num_of_item)).sum
    avg_items_per_order :=
      if js.isEmpty then 0
      else round2 (((js.map (·.num_of_item)).sum : ℚ) / (js.length : ℚ))
    completed_orders := (js.filter (fun o => o.status == "Complete")).length
    shipped_orders := (js.filter (fun o => o.status == "Shipped")).length
    cancelled_orders := (js.filter (fun o => o.status == "Cancelled")).length }

/-- Concatenation of the data of pages `1, 2, ..., n` (page `k+1` is `f k`). -/
def catPages {α : Type} (f : Nat → List α) : Nat → List α
  | 0 => []
  | n + 1 => f 0 ++ catPages (fun k => f (k + 1)) n

/-- The `data` list of `GET /api/customers/<id>/orders` at a given page with
`limit = 100` (empty on the 404 path). -/
def ordersPageData (db : DB) (cid : Nat) (page : Int) : List Order :=
  match getCustomerOrders db cid page 100 with
  | none => []
  | some r => r.data

/-- `has_next` of that page (`false` on the 404 path). -/
def ordersPageHasNext (db : DB) (cid : Nat) (page : Int) : Bool :=
  match getCustomerOrders db cid page 100 with
  | none => false
  | some r => r.pagination.has_next

/-- Literal (case-sensitive, metacharacter-free) substring containment test,
used to state what a `contains` match should mean. -/
def hasSubstr (t s : List Char) : Bool :=
  (List.range (s.length + 1)).any (fun k => ((s.drop k).take t.length) == t)

/-- `search` contains no SQL `LIKE` metacharacter. -/
def noMeta (s : String) : Bool :=
  s.data.all (fun c => !(c == '%' || c == '_'))

/-- Case-folded substring containment: what the `LIKE '%t%'` filter computes
for a metacharacter-free term `t` (SQLite `LIKE` is ASCII-case-insensitive). -/
def containsFold (t s : String) : Prop :=
  ∃ pre post, s.data.map likeFoldChar = pre ++ t.data.map likeFoldChar ++ post

/-- A concrete user row for test databases. -/
def mkUser (i t : Nat) : User :=
  { id := i, first_name := "A", last_name := "B", email := "a@b.c", created_at := t }

/-- A concrete order row for test databases. -/
def mkOrder (oid uid t : Nat) : Order :=
  { order_id := oid, user_id := uid, status := "Complete", num_of_item := 1, created_at := t }

/-- One user, no orders: exercises the NULL `SUM(o.num_of_item)`. -/
def dbNoOrders : DB := { users := [mkUser 1 0], orders := [] }

/-- One user, one matching order and one orphaned order (`user_id = 42`
matches no user). -/
def dbOrphan : DB :=
  { users := [mkUser 1 0], orders := [mkOrder 10 1 3, mkOrder 99 42 7] }

/-- Three users sharing one `created_at`, inserted in id order 2, 1, 3. -/
def dbTie : DB := { users := [mkUser 2 5, mkUser 1 5, mkUser 3 5], orders := [] }

/-- One user whose name fields are the literal string "abc". -/
def dbMeta : DB :=
  { users := [{ id := 1, first_name := "abc", last_name := "abc", email := "abc",
                created_at := 0 }]
    orders := [] }

/-- Stated from the spec's words (§4.2, §8), for comparison with the code:
`total_pages = ceil(total/limit)` with 0 total giving 0 pages,
`has_next = page < total_pages`, `has_prev = page > 1`. -/
def PaginationSpec (pg : Pagination) : Prop :=
  pg.total_pages = ⌈(pg.total : ℚ) / (pg.limit.toNat : ℚ)⌉₊
    ∧ (pg.total = 0 → pg.total_pages = 0)
    ∧ (pg.has_next = true ↔ pg.page < (pg.total_pages : Int))
    ∧ (pg.has_prev = true ↔ 1 < pg.page)

/-- The concrete response of `getCustomerOrders dbOrphan 1 1 10`. -/
def ordersResp1 : CustomerOrdersResponse :=
  { success := true
    data := [mkOrder 10 1 3]
    pagination :=
      { page := 1, limit := 10, total := 1, total_pages := 1,
        has_next := false, has_prev := false } }

theorem normPage_pos (page : Int) : 1 ≤ normPage page := le_max_left 1 page

theorem normLimit_pos (limit : Int) : 1 ≤ normLimit limit := by
  unfold normLimit; omega

theorem normLimit_le (limit : Int) : normLimit limit ≤ 100 := by
  unfold normLimit; omega

theorem normLimit_toNat_pos (limit : Int) : 0 < (normLimit limit).toNat := by
  have := normLimit_pos limit; omega

/-- `(total + limit - 1) // limit` pages cover at least `total` rows. -/
theorem le_pageCount_mul (t l : Nat) (hl : 0 < l) : t ≤ pageCount t l * l := by
  unfold pageCount
  have hd : (t + l - 1) / l * l + (t + l - 1) % l = t + l - 1 := by
    rw [mul_comm]; exact Nat.div_add_mod _ _
  have hm : (t + l - 1) % l < l := Nat.mod_lt _ hl
  set M := (t + l - 1) / l * l with hM
  omega

theorem pageCount_eq_zero_iff (t l : Nat) (hl : 0 < l) :
    pageCount t l = 0 ↔ t = 0 := by
  unfold pageCount
  rw [Nat.div_eq_zero_iff (by omega)]
  omega

/-- The code's `total_pages` formula is ceiling division. -/
theorem pageCount_eq_ceil (t l : Nat) (hl : 0 < l) :
    pageCount t l = ⌈(t : ℚ) / (l : ℚ)⌉₊ := by
  have hl0 : (0 : ℚ) < (l : ℚ) := by exact_mod_cast hl
  rcases Nat.eq_zero_or_pos t with ht | ht
  · subst ht
    simp only [Nat.cast_zero, zero_div, Nat.ceil_zero]
    unfold pageCount
    exact Nat.div_eq_of_lt (by omega)
  · have key : (pageCount t l - 1) * l < t ∧ t ≤ pageCount t l * l := by
      refine ⟨?_, le_pageCount_mul t l hl⟩
      unfold pageCount
      have hd : (t + l - 1) / l * l + (t + l - 1) % l = t + l - 1 := by
        rw [mul_comm]; exact Nat.div_add_mod _ _
      have hm : (t + l - 1) % l < l := Nat.mod_lt _ hl
      rw [Nat.sub_mul, one_mul]
      set M := (t + l - 1) / l * l with hM
      omega
    have hne : pageCount t l ≠ 0 := by
      intro h0
      rw [h0] at key
      omega
    rw [eq_comm, Nat.ceil_eq_iff hne]
    constructor
    · rw [lt_div_iff₀ hl0]
      exact_mod_cast key.1
    · rw [div_le_iff₀ hl0]
      exact_mod_cast key.2

/-- Concatenating `n` consecutive `m`-windows starting at offset 0 restores
the whole list, provided `n` windows suffice to cover it. -/
theorem catPages_chunks {α : Type} (m : Nat) :
    ∀ (n : Nat) (l : List α), l.length ≤ n * m →
      catPages (fun k => (l.drop (k * m)).take m) n = l := by
  intro n
  induction n with
  | zero =>
    intro l h
    simp only [Nat.zero_mul, Nat.le_zero, List.length_eq_zero] at h
    simp [catPages, h]
  | succ n ih =>
    intro l h
    have step : catPages (fun k => (l.drop (k * m)).take m) (n + 1)
        = l.take m ++ catPages (fun k => (((l.drop m).drop (k * m)).take m)) n := by
      rw [catPages]
      simp only [Nat.zero_mul, List.drop_zero]
      congr 1
      congr 1
      funext k
      rw [List.drop_drop]
      congr 2
      ring
    rw [step, ih (l.drop m) ?side]
    · exact List.take_append_drop m l
    case side =>
      rw [List.length_drop]
      have hmul : (n + 1) * m = n * m + m := by ring
      rw [hmul] at h
      omega

theorem likeMatch_percent (pr s : List Char) :
    likeMatch ('%' :: pr) s
      = (List.range (s.length + 1)).any (fun k => likeMatch pr (s.drop k)) := by
  rw [likeMatch.eq_def]
  simp

theorem likeMatch_lit_nil {p : Char} (hp : p ≠ '%') (pr : List Char) :
    likeMatch (p :: pr) [] = false := by
  rw [likeMatch]
  simp [hp]

theorem likeMatch_lit_cons {p : Char} (hp : p ≠ '%') (pr : List Char) (c : Char)
    (s : List Char) :
    likeMatch (p :: pr) (c :: s)
      = ((p == '_' || likeFoldChar p == likeFoldChar c) && likeMatch pr s) := by
  rw [likeMatch]
  simp [hp]

/-- A leading `%` consumes an arbitrary prefix of the subject. -/
theorem likeMatch_percent_iff (pr s : List Char) :
    likeMatch ('%' :: pr) s = true ↔ ∃ k, likeMatch pr (s.drop k) = true := by
  rw [likeMatch_percent, List.any_eq_true]
  constructor
  · rintro ⟨k, _, hk⟩
    exact ⟨k, hk⟩
  · rintro ⟨k, hk⟩
    refine ⟨min k s.length, List.mem_range.mpr (by omega), ?_⟩
    rcases le_or_lt k s.length with h | h
    · rw [min_eq_left h]
      exact hk
    · rw [min_eq_right h.le, List.drop_length]
      rwa [List.drop_eq_nil_iff.mpr h.le] at hk

/-- A bare trailing `%` matches everything. -/
theorem likeMatch_percent_end (s : List Char) : likeMatch ['%'] s = true := by
  rw [likeMatch_percent_iff]
  exact ⟨s.length, by rw [List.drop_length]; rfl⟩

/-- A metacharacter-free pattern followed by `%` matches exactly the
subjects whose case-folding starts with the pattern's case-folding. -/
theorem likeMatch_lit_then_percent :
    ∀ t : List Char, (∀ c ∈ t, c ≠ '%' ∧ c ≠ '_') →
      ∀ s : List Char,
        (likeMatch (t ++ ['%']) s = true ↔
          ∃ post, s.map likeFoldChar = t.map likeFoldChar ++ post) := by
  intro t
  induction t with
  | nil =>
    intro _ s
    simp only [List.nil_append, List.map_nil]
    exact ⟨fun _ => ⟨s.map likeFoldChar, rfl⟩, fun _ => likeMatch_percent_end s⟩
  | cons p t ih =>
    intro ht s
    have hp : p ≠ '%' := (ht p (List.mem_cons_self p t)).1
    have hp2 : p ≠ '_' := (ht p (List.mem_cons_self p t)).2
    have ht2 : ∀ c ∈ t, c ≠ '%' ∧ c ≠ '_' := fun c hc => ht c (List.mem_cons_of_mem p hc)
    cases s with
    | nil =>
      rw [List.cons_append, likeMatch_lit_nil hp]
      simp
    | cons c s =>
      rw [List.cons_append, likeMatch_lit_cons hp]
      simp only [Bool.and_eq_true, Bool.or_eq_true, beq_iff_eq, hp2, false_or,
        List.map_cons, List.cons_append, List.cons.injEq]
      rw [ih ht2 s]
      constructor
      · rintro ⟨hc, post, hpost⟩
        exact ⟨post, hc.symm, hpost⟩
      · rintro ⟨post, hc, hpost⟩
        exact ⟨hc.symm, post, hpost⟩

/-- The `'%term%'` filter computes case-folded substring containment for
every metacharacter-free term. -/
theorem likeStr_wrap_iff (t s : String) (ht : noMeta t = true) :
    likeStr (likePattern t) s = true ↔ containsFold t s := by
  have hmeta : ∀ c ∈ t.data, c ≠ '%' ∧ c ≠ '_' := by
    intro c hc
    have h2 := List.all_eq_true.mp ht c hc
    constructor <;> rintro rfl <;> simp at h2
  have hdata : (likePattern t).data = '%' :: (t.data ++ ['%']) := by
    show ("%" ++ t ++ "%").data = _
    rw [String.data_append, String.data_append]
    rfl
  rw [likeStr, hdata, likeMatch_percent_iff]
  unfold containsFold
  constructor
  · rintro ⟨k, hk⟩
    rw [likeMatch_lit_then_percent t.data hmeta] at hk
    rcases hk with ⟨post, hpost⟩
    refine ⟨(s.data.take k).map likeFoldChar, post, ?_⟩
    have hsplit : s.data.map likeFoldChar
        = (s.data.take k).map likeFoldChar ++ (s.data.drop k).map likeFoldChar := by
      rw [← List.map_append, List.take_append_drop]
    rw [hsplit, hpost, List.append_assoc]
  · rintro ⟨pre, post, hps⟩
    refine ⟨pre.length, ?_⟩
    rw [likeMatch_lit_then_percent t.data hmeta]
    refine ⟨post, ?_⟩
    rw [List.map_drop, hps, List.append_assoc, List.drop_left]

/-- `hasSubstr` decides literal substring containment. -/
theorem hasSubstr_iff (t s : List Char) :
    hasSubstr t s = true ↔ ∃ pre post, s = pre ++ t ++ post := by
  unfold hasSubstr
  rw [List.any_eq_true]
  constructor
  · rintro ⟨k, _, hk⟩
    have he : (s.drop k).take t.length = t := by simpa using hk
    refine ⟨s.take k, (s.drop k).drop t.length, ?_⟩
    rw [List.append_assoc]
    conv_lhs => rw [← List.take_append_drop k s]
    congr 1
    have h2 := List.take_append_drop t.length (s.drop k)
    rw [he] at h2
    exact h2.symm
  · rintro ⟨pre, post, rfl⟩
    refine ⟨pre.length, List.mem_range.mpr ?_, ?_⟩
    · simp only [List.append_assoc, List.length_append]
      omega
    · have h1 : (pre ++ t ++ post).drop pre.length = t ++ post := by
        rw [List.append_assoc, List.drop_left]
      rw [h1, List.take_left]
      simp

/-- The pagination block the code builds satisfies the spec's contract. -/
theorem mkPagination_spec (page limit : Int) (total : Nat) :
    PaginationSpec (mkPagination page limit total) := by
  unfold PaginationSpec mkPagination
  refine ⟨?_, ?_, ?_, ?_⟩
  · exact pageCount_eq_ceil total _ (normLimit_toNat_pos limit)
  · intro h0
    exact (pageCount_eq_zero_iff total _ (normLimit_toNat_pos limit)).mpr h0
  · exact decide_eq_true_iff
  · exact decide_eq_true_iff

theorem drop_take_nil {α : Type} (l : List α) (off n : Nat) (h : l.length ≤ off) :
    (l.drop off).take n = [] := by
  rw [List.drop_eq_nil_iff.mpr h, List.take_nil]

/-- If the requested (normalized) page lies beyond `total_pages`, the offset
reaches past every row. -/
theorem offset_ge_total (page limit : Int) (T : Nat)
    (hp : (pageCount T (normLimit limit).toNat : Int) < normPage page) :
    T ≤ pageOffset page limit := by
  set L := (normLimit limit).toNat with hLdef
  have hL1 : 1 ≤ normLimit limit := normLimit_pos limit
  have hLc : normLimit limit = (L : Int) := by
    rw [hLdef, Int.toNat_of_nonneg (by omega)]
  have hT : T ≤ pageCount T L * L := le_pageCount_mul T L (by omega)
  have h1 : (pageCount T L : Int) ≤ normPage page - 1 := by omega
  have h2 : (T : Int) ≤ (normPage page - 1) * (L : Int) := by
    calc (T : Int) ≤ ((pageCount T L * L : Nat) : Int) := by exact_mod_cast hT
      _ = (pageCount T L : Int) * (L : Int) := by push_cast; ring
      _ ≤ (normPage page - 1) * (L : Int) :=
          mul_le_mul_of_nonneg_right h1 (by exact_mod_cast Nat.zero_le L)
  unfold pageOffset
  rw [hLc]
  calc T = ((T : Int)).toNat := by simp
    _ ≤ ((normPage page - 1) * (L : Int)).toNat := Int.toNat_le_toNat h2

/-- Under the primary-key invariant, `COUNT(DISTINCT u.id)` over the
filtered users equals the number of filtered user rows. -/
theorem filteredUsers_length (db : DB) (s : String)
    (h : (db.users.map (·.id)).Nodup) :
    (filteredUsers db s).length = searchTotal db s := by
  unfold filteredUsers searchTotal
  split
  · rfl
  · have hnd : ((db.users.filter (matchesSearch s)).map (·.id)).Nodup :=
      h.sublist (List.Sublist.map _ (List.filter_sublist _))
    rw [List.dedup_eq_self.mpr hnd, List.length_map]

theorem length_filter_or_disjoint {α : Type} (p q : α → Bool) (l : List α)
    (h : ∀ x ∈ l, ¬(p x = true ∧ q x = true)) :
    (l.filter (fun x => p x || q x)).length
      = (l.filter p).length + (l.filter q).length := by
  induction l with
  | nil => simp
  | cons a l ih =>
    have ih2 := ih (fun x hx => h x (List.mem_cons_of_mem a hx))
    cases hp : p a with
    | true =>
      have hq : q a = false := by
        cases hq2 : q a with
        | false => rfl
        | true => exact absurd ⟨hp, hq2⟩ (h a (List.mem_cons_self a l))
      simp [List.filter_cons, hp, hq, ih2]
      omega
    | false =>
      cases hq : q a with
      | true =>
        simp [List.filter_cons, hp, hq, ih2]
        omega
      | false => simp [List.filter_cons, hp, hq, ih2]

/-- Summing each user's matched-order count equals counting the orders whose
`user_id` matches some user, when user ids are unique. -/
theorem sum_counts_eq_length_filter :
    ∀ (users : List User) (orders : List Order), (users.map (·.id)).Nodup →
      (users.map (fun u => (orders.filter (fun o => o.user_id == u.id)).length)).sum
        = (orders.filter (fun o => users.any (fun v => v.id == o.user_id))).length := by
  intro users
  induction users with
  | nil => intro orders _; simp
  | cons u us ih =>
    intro orders h
    rw [List.map_cons] at h
    have hnd := List.nodup_cons.mp h
    rw [List.map_cons, List.sum_cons, ih orders hnd.2]
    have hpred : ∀ o ∈ orders,
        ((u :: us).any (fun v => v.id == o.user_id))
          = ((o.user_id == u.id) || us.any (fun v => v.id == o.user_id)) := by
      intro o _
      simp only [List.any_cons]
      congr 1
      by_cases he : u.id = o.user_id
      · simp [he]
      · have he2 : ¬o.user_id = u.id := fun h2 => he h2.symm
        simp [he, he2]
    rw [List.filter_congr hpred]
    rw [length_filter_or_disjoint _ _ _ ?disj]
    case disj =>
      rintro o _ ⟨h1, h2⟩
      rw [beq_iff_eq] at h1
      rcases List.any_eq_true.mp h2 with ⟨v, hv, hvid⟩
      rw [beq_iff_eq] at hvid
      exact hnd.1 (List.mem_map.mpr ⟨v, hv, hvid.trans h1⟩)

/-- C3: for every dataset, raw page/limit and search term — the limit being
normalized into [1,100] — the pagination metadata attached by
`list_customers` and by `get_customer_orders` satisfies
`total_pages = ceil(total/limit)` (with a total of 0 yielding 0 pages),
`has_next = (page < total_pages)` and `has_prev = (page > 1)`. -/
theorem pagination_matches_spec (db : DB) (page limit : Int) (search : String)
    (cid : Nat) (r2 : CustomerOrdersResponse)
    (h2 : getCustomerOrders db cid page limit = some r2) :
    PaginationSpec (listCustomers db page limit search).pagination
      ∧ PaginationSpec r2.pagination := by
  constructor
  · exact mkPagination_spec page limit _
  · unfold getCustomerOrders at h2
    by_cases hex : db.users.any (fun u => u.id == cid) = true
    · rw [if_pos hex] at h2
      simp only [Option.some.injEq] at h2
      rw [← h2]
      exact mkPagination_spec page limit _
    · rw [if_neg hex] at h2
      exact absurd h2 (by simp)

/-- Witness for C3 at a concrete database and inputs. -/
theorem pagination_matches_spec_witness :
    PaginationSpec (listCustomers dbOrphan 1 10 "").pagination
      ∧ PaginationSpec ordersResp1.pagination :=
  pagination_matches_spec dbOrphan 1 10 "" 1 ordersResp1 (by decide)

/-- C7: both `get_customer_details` and `get_customer_orders` return
NotFound (`none`) exactly when no user carries the requested id, for every
id and — for the orders endpoint, whose existence check is a lookup separate
from the paginated fetch — every page/limit; the NotFound result carries no
order data. -/
theorem notFound_iff (db : DB) (cid : Nat) (page limit : Int) :
    (getCustomerDetails db cid = none ↔ ∀ u ∈ db.users, u.id ≠ cid)
      ∧ (getCustomerOrders db cid page limit = none ↔ ∀ u ∈ db.users, u.id ≠ cid) := by
  constructor
  · have h1 : getCustomerDetails db cid = none
        ↔ db.users.find? (fun u => u.id == cid) = none := by
      unfold getCustomerDetails
      cases db.users.find? (fun u => u.id == cid) <;> simp
    rw [h1, List.find?_eq_none]
    simp
  · unfold getCustomerOrders
    by_cases hex : db.users.any (fun u => u.id == cid) = true
    · rw [if_pos hex]
      constructor
      · intro h3
        exact absurd h3 (by simp)
      · intro h3
        rcases List.any_eq_true.mp hex with ⟨u, hu, huid⟩
        rw [beq_iff_eq] at huid
        exact absurd huid (h3 u hu)
    · rw [if_neg hex]
      constructor
      · intro _ u hu huid
        exact hex (List.any_eq_true.mpr ⟨u, hu, beq_iff_eq.mpr huid⟩)
      · intro _
        rfl

/-- C10: the stripped search term is interpolated unescaped into the
`'%term%'` LIKE pattern, so the metacharacter term "a_c" makes
`list_customers` return the user all of whose searched fields are the
literal "abc" — none of which contains "a_c" as a literal substring
(`hasSubstr` decides literal containment, by `hasSubstr_iff`). -/
theorem listCustomers_like_wildcard :
    ((listCustomers dbMeta 1 10 "a_c").data.map (·.id)) = [1]
      ∧ pyStrip "a_c" = "a_c"
      ∧ noMeta "a_c" = false
      ∧ hasSubstr "a_c".data "abc".data = false
      ∧ (dbMeta.users.map (·.first_name)) = ["abc"]
      ∧ (dbMeta.users.map (·.last_name)) = ["abc"]
      ∧ (dbMeta.users.map (·.email)) = ["abc"] := by
  decide

/-- C1 counterexample: for the existing customer 1 of `dbNoOrders`, who has
no orders, `get_customer_details` returns the customer record with
`total_items_ordered` null (`none`), not 0 — the SQL-NULL `SUM` is passed
through `dict(customer)` uncoalesced. -/
theorem details_null_total_items_cex :
    ((getCustomerDetails dbNoOrders 1).map fun d => d.customer.total_items_ordered)
        = some none
      ∧ ((getCustomerDetails dbNoOrders 1).map fun d => d.customer.total_items_ordered)
        ≠ some (some 0) := by
  decide

/-- C1 (amended): for every existing customer without orders,
`get_customer_details` leaves `total_items_ordered` null in the customer
record, while the coalesced (`or 0`) aggregates — `order_statistics`'s
`total_items` and `avg_items_per_order`, and the global statistics —
resolve to 0, never null. -/
theorem details_no_orders_aggregates (db : DB) (cid : Nat)
    (hu : (getCustomerDetails db cid).isSome = true)
    (hno : userOrders db cid = []) :
    ((getCustomerDetails db cid).map fun d => d.customer.total_items_ordered) = some none
      ∧ ((getCustomerDetails db cid).map fun d => d.customer.order_count) = some 0
      ∧ ((getCustomerDetails db cid).map fun d => d.order_statistics.total_items) = some 0
      ∧ ((getCustomerDetails db cid).map fun d => d.order_statistics.avg_items_per_order)
          = some 0
      ∧ ((getCustomerDetails db cid).map fun d => d.order_statistics.total_orders) = some 0
      ∧ (db.orders = [] → (getStatistics db).total_items = 0
          ∧ (getStatistics db).avg_items_per_order = 0) := by
  have hmain : ∀ d, getCustomerDetails db cid = some d →
      d.customer.total_items_ordered = none ∧ d.customer.order_count = 0
        ∧ d.order_statistics.total_items = 0
        ∧ d.order_statistics.avg_items_per_order = 0
        ∧ d.order_statistics.total_orders = 0 := by
    intro d hd
    unfold getCustomerDetails at hd
    cases hfind : db.users.find? (fun u => u.id == cid) with
    | none => rw [hfind] at hd; exact absurd hd (by simp)
    | some u =>
      rw [hfind] at hd
      simp only [Option.some.injEq] at hd
      rw [← hd]
      simp [hno, orderStats]
  cases hopt : getCustomerDetails db cid with
  | none => rw [hopt] at hu; exact absurd hu (by simp)
  | some d =>
    have hr := hmain d hopt
    refine ⟨?_, ?_, ?_, ?_, ?_, ?_⟩
    · simp [hopt, hr.1]
    · simp [hopt, hr.2.1]
    · simp [hopt, hr.2.2.1]
    · simp [hopt, hr.2.2.2.1]
    · simp [hopt, hr.2.2.2.2]
    · intro ho
      have hj : joinedOrders db = [] := by
        unfold joinedOrders userOrders
        rw [ho]
        simp
      constructor
      · simp [getStatistics, hj]
      · simp [getStatistics, hj]

/-- Witness for the amended C1 at the concrete `dbNoOrders`. -/
theorem details_no_orders_aggregates_witness :
    ((getCustomerDetails dbNoOrders 1).map fun d => d.order_statistics.avg_items_per_order)
      = some 0 :=
  (details_no_orders_aggregates dbNoOrders 1 (by decide) (by decide)).2.2.2.1

/-- C2 counterexample: on `dbOrphan` the orders table holds 2 rows but
`get_statistics` reports `total_orders = 1` — the `users LEFT JOIN orders`
preserves users, not orders, so the orphaned order (`user_id = 42`) is not
counted. -/
theorem statistics_orphan_cex :
    (getStatistics dbOrphan).total_orders = 1 ∧ dbOrphan.orders.length = 2 := by
  decide

/-- C2 (amended): under the primary-key invariant on user ids,
`get_statistics` reports `total_orders` equal to the count of Order rows
whose `user_id` matches an existing user — never inflated by the join, but
excluding orphaned orders. -/
theorem statistics_total_orders (db : DB) (h : (db.users.map (·.id)).Nodup) :
    (getStatistics db).total_orders
      = (db.orders.filter (fun o => db.users.any (fun v => v.id == o.user_id))).length := by
  show (joinedOrders db).length = _
  unfold joinedOrders
  rw [List.length_flatten, List.map_map]
  have hcomp : (List.length ∘ fun u : User => userOrders db u.id)
      = fun u : User => (db.orders.filter (fun o => o.user_id == u.id)).length := by
    funext u
    rfl
  rw [hcomp]
  exact sum_counts_eq_length_filter db.users db.orders h

/-- Witness for the amended C2 at the concrete `dbOrphan`. -/
theorem statistics_total_orders_witness :
    (getStatistics dbOrphan).total_orders
      = (dbOrphan.orders.filter
          (fun o => dbOrphan.users.any (fun v => v.id == o.user_id))).length :=
  statistics_total_orders dbOrphan (by decide)

/-- C5 counterexample: on `dbTie` (three users with one shared `created_at`,
inserted in id order 2, 1, 3) the embedded query — a stable realization of
the source's tiebreaker-free `ORDER BY created_at DESC` — returns the page
in id order [2, 1, 3], which is ordered neither ascending nor descending by
id, refuting the claimed deterministic secondary id key. -/
theorem listCustomers_tie_order_cex :
    ((listCustomers dbTie 1 10 "").data.map (·.id)) = [2, 1, 3]
      ∧ ((listCustomers dbTie 1 10 "").data.map (·.created_at)) = [5, 5, 5]
      ∧ ¬ ((listCustomers dbTie 1 10 "").data.map (·.id)).Pairwise (· ≤ ·)
      ∧ ¬ ((listCustomers dbTie 1 10 "").data.map (·.id)).Pairwise (fun a b => b ≤ a) := by
  decide

/-- C5 (amended): the rows of every `list_customers` page are ordered by
`created_at` descending; the query has no secondary sort key, so equal
timestamps carry no further ordering guarantee (in particular none by id). -/
theorem listCustomers_sorted_desc (db : DB) (page limit : Int) (search : String) :
    ((listCustomers db page limit search).data.map (·.created_at)).Pairwise
      (fun a b => b ≤ a) := by
  unfold listCustomers
  simp only [List.map_map]
  rw [List.pairwise_map]
  have hs : ((sortUsersDesc (filteredUsers db (pyStrip search))).drop
      (pageOffset page limit)).Pairwise byCreatedDescU :=
    (List.sorted_insertionSort byCreatedDescU
      (filteredUsers db (pyStrip search))).sublist (List.drop_sublist _ _)
  exact hs.sublist (List.take_sublist _ _)

/-- C4: for every integer page and limit, normalization yields
`page' = max(1, page)`, `limit' = clamp(limit, 1, 100)` and
`offset = (page' - 1) * limit'`; both paginated operations return the window
of the filtered, ordered result set that skips exactly `offset` rows and
keeps at most `limit'` rows. -/
theorem pagination_window (db : DB) (page limit : Int) (search : String)
    (cid : Nat) (r2 : CustomerOrdersResponse)
    (h2 : getCustomerOrders db cid page limit = some r2) :
    normPage page = max 1 page
      ∧ normLimit limit = max 1 (min 100 limit)
      ∧ (1 ≤ normLimit limit ∧ normLimit limit ≤ 100)
      ∧ (pageOffset page limit : Int) = (normPage page - 1) * normLimit limit
      ∧ (listCustomers db page limit search).data
          = (((sortUsersDesc (filteredUsers db (pyStrip search))).drop
              (pageOffset page limit)).take (normLimit limit).toNat).map (rowOfUser db)
      ∧ (listCustomers db page limit search).data.length ≤ (normLimit limit).toNat
      ∧ r2.data = ((sortOrdersDesc (userOrders db cid)).drop
          (pageOffset page limit)).take (normLimit limit).toNat
      ∧ r2.data.length ≤ (normLimit limit).toNat := by
  have hr2 : r2.data = ((sortOrdersDesc (userOrders db cid)).drop
      (pageOffset page limit)).take (normLimit limit).toNat := by
    unfold getCustomerOrders at h2
    by_cases hex : db.users.any (fun u => u.id == cid) = true
    · rw [if_pos hex] at h2
      simp only [Option.some.injEq] at h2
      rw [← h2]
    · rw [if_neg hex] at h2
      exact absurd h2 (by simp)
  have hdata : (listCustomers db page limit search).data
      = (((sortUsersDesc (filteredUsers db (pyStrip search))).drop
          (pageOffset page limit)).take (normLimit limit).toNat).map (rowOfUser db) := rfl
  refine ⟨rfl, ?_, ⟨normLimit_pos limit, normLimit_le limit⟩, ?_, hdata, ?_, hr2, ?_⟩
  · unfold normLimit
    omega
  · unfold pageOffset
    rw [Int.toNat_of_nonneg]
    have h3 := normPage_pos page
    have h4 := normLimit_pos limit
    exact mul_nonneg (by omega) (by omega)
  · rw [hdata, List.length_map, List.length_take]
    exact min_le_left _ _
  · rw [hr2, List.length_take]
    exact min_le_left _ _

/-- Witness for C4 at a concrete database and inputs. -/
theorem pagination_window_witness :
    (listCustomers dbOrphan 1 10 "").data.length ≤ (normLimit 10).toNat :=
  (pagination_window dbOrphan 1 10 "" 1 ordersResp1 (by decide)).2.2.2.2.2.1

/-- C6: every user row that `list_customers` returns — for any search term,
empty or not — carries `order_count` equal to the number of Order rows whose
`user_id` equals that user's id; the non-empty search filter is an OR of the
three `LIKE` tests on first_name, last_name and email, and (for
metacharacter-free terms) each test is case-folded substring containment. -/
theorem listCustomers_order_count (db : DB) (search : String)
    (hs : pyStrip search ≠ "") (hm : noMeta (pyStrip search) = true) :
    (∀ (page limit : Int) (search2 : String),
        ∀ r ∈ (listCustomers db page limit search2).data,
          r.order_count = (db.orders.filter (fun o => o.user_id == r.id)).length)
      ∧ (∀ u : User, u ∈ filteredUsers db (pyStrip search) ↔
          u ∈ db.users ∧ (likeStr (likePattern (pyStrip search)) u.first_name = true
            ∨ likeStr (likePattern (pyStrip search)) u.last_name = true
            ∨ likeStr (likePattern (pyStrip search)) u.email = true))
      ∧ (∀ u : User, u ∈ filteredUsers db (pyStrip search) ↔
          u ∈ db.users ∧ (containsFold (pyStrip search) u.first_name
            ∨ containsFold (pyStrip search) u.last_name
            ∨ containsFold (pyStrip search) u.email)) := by
  have hfilter : ∀ u : User, u ∈ filteredUsers db (pyStrip search) ↔
      u ∈ db.users ∧ (likeStr (likePattern (pyStrip search)) u.first_name = true
        ∨ likeStr (likePattern (pyStrip search)) u.last_name = true
        ∨ likeStr (likePattern (pyStrip search)) u.email = true) := by
    intro u
    unfold filteredUsers
    rw [if_neg hs, List.mem_filter]
    unfold matchesSearch
    simp [or_assoc]
  refine ⟨?_, hfilter, ?_⟩
  · intro page limit s2 r hr
    have hr2 : r ∈ (((sortUsersDesc (filteredUsers db (pyStrip s2))).drop
        (pageOffset page limit)).take (normLimit limit).toNat).map (rowOfUser db) := hr
    rcases List.mem_map.mp hr2 with ⟨u, _, rfl⟩
    simp [rowOfUser, userOrders]
  · intro u
    rw [hfilter u]
    exact and_congr Iff.rfl
      (or_congr (likeStr_wrap_iff _ u.first_name hm)
        (or_congr (likeStr_wrap_iff _ u.last_name hm)
          (likeStr_wrap_iff _ u.email hm)))

/-- Witness for C6: the single row of a concrete listing carries the right
order count. -/
theorem listCustomers_order_count_witness :
    (rowOfUser dbOrphan (mkUser 1 0)).order_count
      = (dbOrphan.orders.filter
          (fun o => o.user_id == (rowOfUser dbOrphan (mkUser 1 0)).id)).length :=
  (listCustomers_order_count dbOrphan "a" (by decide) (by decide)).1
    1 10 "" (rowOfUser dbOrphan (mkUser 1 0)) (by decide)

/-- C9: requesting a page strictly beyond `total_pages` is not an error:
`list_customers` (and, for an existing customer, `get_customer_orders`)
returns `success = true` with an empty data list, the requested page echoed,
`has_next = false`, and the unchanged total. -/
theorem beyond_last_page_empty (db : DB) (page limit : Int) (search : String)
    (cid : Nat) (hwf : db.wf)
    (hp : ((listCustomers db page limit search).pagination.total_pages : Int)
        < normPage page) :
    ((listCustomers db page limit search).data = []
      ∧ (listCustomers db page limit search).success = true
      ∧ (listCustomers db page limit search).pagination.has_next = false
      ∧ (listCustomers db page limit search).pagination.page = normPage page
      ∧ (listCustomers db page limit search).pagination.total
          = searchTotal db (pyStrip search))
    ∧ (∀ r2, getCustomerOrders db cid page limit = some r2 →
        ((r2.pagination.total_pages : Int) < normPage page) →
        r2.data = [] ∧ r2.success = true ∧ r2.pagination.has_next = false
          ∧ r2.pagination.page = normPage page
          ∧ r2.pagination.total = (userOrders db cid).length) := by
  constructor
  · have hp2 : (pageCount (searchTotal db (pyStrip search)) (normLimit limit).toNat : Int)
        < normPage page := hp
    have hlen : (sortUsersDesc (filteredUsers db (pyStrip search))).length
        ≤ pageOffset page limit := by
      unfold sortUsersDesc
      rw [List.length_insertionSort, filteredUsers_length db _ hwf.1]
      exact offset_ge_total page limit _ hp2
    refine ⟨?_, rfl, ?_, rfl, rfl⟩
    · show ((((sortUsersDesc (filteredUsers db (pyStrip search))).drop
          (pageOffset page limit)).take (normLimit limit).toNat).map (rowOfUser db)) = []
      rw [drop_take_nil _ _ _ hlen]
      rfl
    · show decide (normPage page
          < ((pageCount (searchTotal db (pyStrip search))
              (normLimit limit).toNat : Nat) : Int)) = false
      exact decide_eq_false (by omega)
  · intro r2 h2 hp3
    unfold getCustomerOrders at h2
    by_cases hex : db.users.any (fun u => u.id == cid) = true
    · rw [if_pos hex] at h2
      simp only [Option.some.injEq] at h2
      subst h2
      have hp4 : (pageCount (userOrders db cid).length (normLimit limit).toNat : Int)
          < normPage page := hp3
      have hlen : (sortOrdersDesc (userOrders db cid)).length ≤ pageOffset page limit := by
        unfold sortOrdersDesc
        rw [List.length_insertionSort]
        exact offset_ge_total page limit _ hp4
      refine ⟨?_, rfl, ?_, rfl, rfl⟩
      · exact drop_take_nil _ _ _ hlen
      · show decide (normPage page
            < ((pageCount (userOrders db cid).length
                (normLimit limit).toNat : Nat) : Int)) = false
        exact decide_eq_false (by omega)
    · rw [if_neg hex] at h2
      exact absurd h2 (by simp)

/-- Witness for C9: page 2 of a 1-user, 1-page listing is empty but
successful. -/
theorem beyond_last_page_empty_witness :
    (listCustomers dbOrphan 2 10 "").data = [] :=
  (beyond_last_page_empty dbOrphan 2 10 "" 1 (by decide) (by decide)).1.1

/-- C8: for an existing customer, concatenating `get_customer_orders` page 1
at limit 100 with every subsequent page up to the first page where
`has_next` is false reproduces exactly the full ordered order list of that
user — the same multiset as the unpaginated `WHERE user_id = ?` result, with
no duplicates and no omissions. -/
theorem customer_orders_roundtrip (db : DB) (cid : Nat)
    (h : db.users.any (fun u => u.id == cid) = true) :
    catPages (fun k => ordersPageData db cid ((k : Int) + 1))
        (max (pageCount (userOrders db cid).length 100) 1)
      = sortOrdersDesc (userOrders db cid)
    ∧ (catPages (fun k => ordersPageData db cid ((k : Int) + 1))
        (max (pageCount (userOrders db cid).length 100) 1)).Perm (userOrders db cid)
    ∧ (∀ k : Nat, k + 1 < max (pageCount (userOrders db cid).length 100) 1 →
        ordersPageHasNext db cid ((k : Int) + 1) = true)
    ∧ ordersPageHasNext db cid
        ((max (pageCount (userOrders db cid).length 100) 1 : Nat) : Int) = false := by
  have hlim : (normLimit 100).toNat = 100 := by decide
  have hoff : ∀ k : Nat, pageOffset ((k : Int) + 1) 100 = k * 100 := by
    intro k
    unfold pageOffset normPage normLimit
    have h1 : max 1 ((k : Int) + 1) = (k : Int) + 1 := by omega
    have h2 : min 100 (max 1 (100 : Int)) = 100 := by omega
    rw [h1, h2]
    have h3 : ((k : Int) + 1 - 1) * 100 = ((k * 100 : Nat) : Int) := by push_cast; ring
    rw [h3, Int.toNat_natCast]
  have hdata : ∀ k : Nat, ordersPageData db cid ((k : Int) + 1)
      = ((sortOrdersDesc (userOrders db cid)).drop (k * 100)).take 100 := by
    intro k
    unfold ordersPageData getCustomerOrders
    rw [if_pos h]
    simp [hoff k, hlim]
  have hnext : ∀ p : Int, ordersPageHasNext db cid p
      = decide (normPage p < (pageCount (userOrders db cid).length 100 : Int)) := by
    intro p
    unfold ordersPageHasNext getCustomerOrders
    rw [if_pos h]
    simp [mkPagination, hlim]
  have hcov : (sortOrdersDesc (userOrders db cid)).length
      ≤ (max (pageCount (userOrders db cid).length 100) 1) * 100 := by
    have hlen : (sortOrdersDesc (userOrders db cid)).length
        = (userOrders db cid).length := by
      unfold sortOrdersDesc
      exact List.length_insertionSort _ _
    rcases Nat.eq_zero_or_pos (pageCount (userOrders db cid).length 100) with h0 | hpos
    · have hz : (userOrders db cid).length = 0 :=
        (pageCount_eq_zero_iff _ 100 (by norm_num)).mp h0
      rw [hlen, hz]
      exact Nat.zero_le _
    · have hmax : max (pageCount (userOrders db cid).length 100) 1
          = pageCount (userOrders db cid).length 100 := by omega
      rw [hlen, hmax]
      exact le_pageCount_mul _ 100 (by norm_num)
  have hcat : catPages (fun k => ordersPageData db cid ((k : Int) + 1))
      (max (pageCount (userOrders db cid).length 100) 1)
        = sortOrdersDesc (userOrders db cid) := by
    have hfun : (fun k : Nat => ordersPageData db cid ((k : Int) + 1))
        = fun k : Nat => ((sortOrdersDesc (userOrders db cid)).drop (k * 100)).take 100 :=
      funext fun k => hdata k
    rw [hfun]
    exact catPages_chunks 100 _ _ hcov
  refine ⟨hcat, ?_, ?_, ?_⟩
  · rw [hcat]
    exact List.perm_insertionSort byCreatedDescO (userOrders db cid)
  · intro k hk
    have hk2 : k + 1 < pageCount (userOrders db cid).length 100 := by omega
    rw [hnext]
    apply decide_eq_true
    unfold normPage
    omega
  · rw [hnext]
    apply decide_eq_false
    unfold normPage
    omega

/-- Witness for C8 at the concrete `dbOrphan`, customer 1. -/
theorem customer_orders_roundtrip_witness :
    catPages (fun k => ordersPageData dbOrphan 1 ((k : Int) + 1))
        (max (pageCount (userOrders dbOrphan 1).length 100) 1)
      = sortOrdersDesc (userOrders dbOrphan 1) :=
  (customer_orders_roundtrip dbOrphan 1 (by decide)).1

end CustomerApi
